import Mathlib

/-
Verification development for the AIDE data-core pipeline
(aide-data-engine: services/representative.py, services/deduplication.py,
services/classification.py, services/embedding.py, pipeline/processor.py,
and scripts/classification/clustering_service.py).

Numeric values computed with Python floats are modelled over ℚ; Python
dicts keyed by cluster id are modelled as insertion-ordered association
lists; `list.sort(key=..., reverse=True)` (a stable sort) is modelled by a
stable descending insertion sort.
-/

namespace AideCore

/-- One news item as seen by the in-core services: the fields of the
article dictionaries built in `DataProcessor._select_representatives`
(id, title, description, source). -/
structure Article where
  id : Int
  title : String
  description : String
  source : String
deriving DecidableEq

/-- State of a `RepresentativeSelector` after construction:
the two (possibly normalized) weights and the trusted-source set
(a Python `set`, modelled as a list queried by membership). -/
structure RepresentativeSelector where
  information_weight : ℚ
  source_reliability_weight : ℚ
  trusted_sources : List String
deriving DecidableEq

/-- Default trusted sources of `RepresentativeSelector.__init__`
(used when `trusted_sources is None`). -/
def defaultTrustedSources : List String :=
  ["조선일보", "중앙일보", "동아일보", "한국경제", "매일경제"]

/-- Embeds `RepresentativeSelector.__init__`: store the weights and the
trusted set; if the weight total is positive, divide both weights by the
total.  (The Python code has no `raise`: a zero total leaves the weights
untouched.) -/
def RepresentativeSelector.init (information_weight source_reliability_weight : ℚ)
    (trusted_sources : Option (List String)) : RepresentativeSelector :=
  let trusted := trusted_sources.getD defaultTrustedSources
  let total := information_weight + source_reliability_weight
  if 0 < total then
    { information_weight := information_weight / total
      source_reliability_weight := source_reliability_weight / total
      trusted_sources := trusted }
  else
    { information_weight := information_weight
      source_reliability_weight := source_reliability_weight
      trusted_sources := trusted }

/-- Embeds `RepresentativeSelector._calculate_information_score`:
`min((len(title)+len(description))/500.0, 1.0)`. -/
def RepresentativeSelector.calculate_information_score (a : Article) : ℚ :=
  min (((a.title.length + a.description.length : ℕ) : ℚ) / 500) 1

/-- Embeds `RepresentativeSelector._calculate_reliability_score`:
`1.0` for a trusted source, else `0.3`. -/
def RepresentativeSelector.calculate_reliability_score
    (sel : RepresentativeSelector) (a : Article) : ℚ :=
  if a.source ∈ sel.trusted_sources then 1 else 3/10

/-- Embeds `RepresentativeSelector._score_article`:
weighted sum of the information and reliability scores. -/
def RepresentativeSelector.score_article
    (sel : RepresentativeSelector) (a : Article) : ℚ :=
  sel.information_weight * RepresentativeSelector.calculate_information_score a +
  sel.source_reliability_weight * sel.calculate_reliability_score a

/-- The scoring formula exactly as the specification words it
(for comparison with the translated `score_article`). -/
def specScoreFormula (sel : RepresentativeSelector) (a : Article) : ℚ :=
  sel.information_weight * min (((a.title.length + a.description.length : ℕ) : ℚ) / 500) 1 +
  sel.source_reliability_weight * (if a.source ∈ sel.trusted_sources then 1 else 3/10)

/-- Stable descending insertion of one scored pair into an already
descending-sorted list: the new pair (which comes from an earlier input
position) is placed before every pair of equal or smaller score. -/
def insertScoredDesc (x : ℚ × Article) : List (ℚ × Article) → List (ℚ × Article)
  | [] => [x]
  | y :: ys => if y.1 ≤ x.1 then x :: y :: ys else y :: insertScoredDesc x ys

/-- Models `scored_articles.sort(key=lambda x: x[0], reverse=True)`:
Python's sort is stable, so any stable descending sort (here insertion
sort) is extensionally the same function. -/
def sortScoredDesc : List (ℚ × Article) → List (ℚ × Article)
  | [] => []
  | x :: xs => insertScoredDesc x (sortScoredDesc xs)

/-- Embeds `RepresentativeSelector.select`: `None` on an empty list, the
single element of a singleton list, otherwise the first element of the
scored list sorted descending by score. -/
def RepresentativeSelector.select (sel : RepresentativeSelector) :
    List Article → Option Article
  | [] => none
  | [a] => some a
  | a :: b :: t =>
    ((sortScoredDesc ((a :: b :: t).map fun x => (sel.score_article x, x))).head?).map
      Prod.snd

lemma insertScoredDesc_ne_nil (x : ℚ × Article) (l : List (ℚ × Article)) :
    insertScoredDesc x l ≠ [] := by
  cases l with
  | nil => simp [insertScoredDesc]
  | cons y ys =>
    simp only [insertScoredDesc]
    split <;> simp

lemma sortScoredDesc_ne_nil (x : ℚ × Article) (l : List (ℚ × Article)) :
    sortScoredDesc (x :: l) ≠ [] := by
  simp only [sortScoredDesc]
  exact insertScoredDesc_ne_nil _ _

/-- The head of the stable descending sort of a non-empty list is the
element of maximal score that occurs earliest: it dominates every
element, and every strictly earlier element has strictly smaller score. -/
lemma head_sortScoredDesc :
    ∀ (l : List (ℚ × Article)), l ≠ [] →
      ∃ (i : ℕ) (h : i < l.length),
        (sortScoredDesc l).head? = some (l.get ⟨i, h⟩) ∧
        (∀ p ∈ l, p.1 ≤ (l.get ⟨i, h⟩).1) ∧
        (∀ (j : ℕ) (hj : j < l.length), j < i →
          (l.get ⟨j, hj⟩).1 < (l.get ⟨i, h⟩).1) := by
  intro l
  induction l with
  | nil => intro h; exact absurd rfl h
  | cons x t ih =>
    intro _
    cases t with
    | nil =>
      refine ⟨0, by simp, ?_, ?_, ?_⟩
      · simp [sortScoredDesc, insertScoredDesc]
      · intro p hp; simp at hp; simp [hp]
      · intro j hj hj0; omega
    | cons b t' =>
      obtain ⟨i, h, hhead, hmax, hfirst⟩ := ih (by simp)
      obtain ⟨m, s', hs⟩ := List.exists_cons_of_ne_nil (sortScoredDesc_ne_nil b t')
      have hm : m = (b :: t').get ⟨i, h⟩ := by
        rw [hs] at hhead; simpa using hhead
      have hun : sortScoredDesc (x :: b :: t') = insertScoredDesc x (m :: s') := by
        show insertScoredDesc x (sortScoredDesc (b :: t')) = _
        rw [hs]
      by_cases hcmp : m.1 ≤ x.1
      · -- the new element x takes the head
        refine ⟨0, by simp, ?_, ?_, ?_⟩
        · rw [hun]
          simp only [insertScoredDesc, if_pos hcmp]
          rfl
        · intro p hp
          rcases List.mem_cons.mp hp with hpx | hpt
          · subst hpx; exact le_refl _
          · have h1 : p.1 ≤ m.1 := by rw [hm]; exact hmax p hpt
            exact le_trans h1 hcmp
        · intro j hj hj0; omega
      · -- the previous head m stays in front
        push_neg at hcmp
        have hi1 : i + 1 < (x :: b :: t').length := by simpa using Nat.succ_lt_succ h
        have hgeq : (x :: b :: t').get ⟨i + 1, hi1⟩ = (b :: t').get ⟨i, h⟩ := rfl
        refine ⟨i + 1, hi1, ?_, ?_, ?_⟩
        · rw [hun]
          simp only [insertScoredDesc, if_neg (not_le.mpr hcmp), List.head?_cons]
          rw [hgeq, ← hm]
        · intro p hp
          rcases List.mem_cons.mp hp with hpx | hpt
          · subst hpx
            rw [hgeq, ← hm]
            exact le_of_lt hcmp
          · rw [hgeq]; exact hmax p hpt
        · intro j hj hji
          cases j with
          | zero =>
            rw [hgeq, ← hm]
            exact hcmp
          | succ k =>
            have hk : k < (b :: t').length := by simpa using hj
            have hgk : (x :: b :: t').get ⟨k + 1, hj⟩ = (b :: t').get ⟨k, hk⟩ := rfl
            rw [hgk, hgeq]
            exact hfirst k hk (by omega)

/-- `select` on a non-empty list returns the earliest article of maximal
score (existence, score-maximality, and first-max-wins all in one). -/
lemma select_spec (sel : RepresentativeSelector) (articles : List Article)
    (hne : articles ≠ []) :
    ∃ (i : ℕ) (h : i < articles.length),
      sel.select articles = some (articles.get ⟨i, h⟩) ∧
      (∀ b ∈ articles, sel.score_article b ≤ sel.score_article (articles.get ⟨i, h⟩)) ∧
      (∀ (j : ℕ) (hj : j < articles.length), j < i →
        sel.score_article (articles.get ⟨j, hj⟩) <
          sel.score_article (articles.get ⟨i, h⟩)) := by
  match articles with
  | [] => exact absurd rfl hne
  | [a] =>
    refine ⟨0, by simp, ?_, ?_, ?_⟩
    · simp [RepresentativeSelector.select]
    · intro b hb; simp at hb; simp [hb]
    · intro j hj hj0; omega
  | a :: b :: t =>
    have hscne : ((a :: b :: t).map fun x => (sel.score_article x, x)) ≠ [] := by simp
    obtain ⟨i, h, hhead, hmax, hfirst⟩ := head_sortScoredDesc _ hscne
    have hi : i < (a :: b :: t).length := by simpa using h
    have hget : ((a :: b :: t).map fun x => (sel.score_article x, x)).get ⟨i, h⟩ =
        (sel.score_article ((a :: b :: t).get ⟨i, hi⟩), (a :: b :: t).get ⟨i, hi⟩) := by
      simp only [List.get_eq_getElem, List.getElem_map]
    refine ⟨i, hi, ?_, ?_, ?_⟩
    · show ((sortScoredDesc ((a :: b :: t).map fun x =>
          (sel.score_article x, x))).head?).map Prod.snd = some ((a :: b :: t).get ⟨i, hi⟩)
      rw [hhead, hget]
      rfl
    · intro c hc
      have hmem : (sel.score_article c, c) ∈
          (a :: b :: t).map (fun x => (sel.score_article x, x)) :=
        List.mem_map_of_mem _ hc
      have := hmax _ hmem
      rwa [hget] at this
    · intro j hj hji
      have hj' : j < ((a :: b :: t).map fun x => (sel.score_article x, x)).length := by
        simpa using hj
      have hgetj : ((a :: b :: t).map fun x => (sel.score_article x, x)).get ⟨j, hj'⟩ =
          (sel.score_article ((a :: b :: t).get ⟨j, hj⟩), (a :: b :: t).get ⟨j, hj⟩) := by
        simp only [List.get_eq_getElem, List.getElem_map]
      have := hfirst j hj' hji
      rw [hget, hgetj] at this
      exact this

/-- A successful `select` returns a member of its input. -/
lemma select_mem {sel : RepresentativeSelector} {articles : List Article} {r : Article}
    (hr : sel.select articles = some r) : r ∈ articles := by
  cases articles with
  | nil => simp [RepresentativeSelector.select] at hr
  | cons a t =>
    obtain ⟨i, h, hsel, -, -⟩ := select_spec sel (a :: t) (by simp)
    rw [hsel] at hr
    obtain rfl : (a :: t).get ⟨i, h⟩ = r := by simpa using hr
    exact List.get_mem _ _ _

/-- `select` succeeds on every non-empty list. -/
lemma select_isSome (sel : RepresentativeSelector) {articles : List Article}
    (hne : articles ≠ []) : ∃ r, sel.select articles = some r := by
  obtain ⟨i, h, hsel, -, -⟩ := select_spec sel articles hne
  exact ⟨_, hsel⟩

/-- Helper for concrete scenarios: a repeated-character string of a given
length. -/
def strOfLen (n : ℕ) (c : Char) : String := String.mk (List.replicate n c)

lemma strOfLen_length (n : ℕ) (c : Char) : (strOfLen n c).length = n := by
  show (List.replicate n c).length = n
  rw [List.length_replicate]

/-- C5 counterexample input: both weights zero. -/
def selZeroWeights : RepresentativeSelector :=
  RepresentativeSelector.init 0 0 (some ["X"])

/-- C5 (counterexample): constructing a `RepresentativeSelector` with
`information_weight = 0` and `source_reliability_weight = 0` does not fail:
`__init__` silently returns a selector whose stored weights are still both
zero (the `if total > 0` guard skips normalization and nothing raises). -/
theorem C5_zero_weights_accepted :
    selZeroWeights =
      { information_weight := 0
        source_reliability_weight := 0
        trusted_sources := ["X"] } := by
  show RepresentativeSelector.init 0 0 (some ["X"]) = _
  norm_num [RepresentativeSelector.init]

/-- C5 (amended): construction with both weights zero is silently
accepted, the stored weights staying zero and unnormalized; for any
weights with positive sum, construction normalizes them so that the two
stored weights sum to 1. -/
theorem C5_weight_normalization
    (iw sw : ℚ) (t : Option (List String)) (h : 0 < iw + sw) :
    (RepresentativeSelector.init iw sw t).information_weight +
        (RepresentativeSelector.init iw sw t).source_reliability_weight = 1 ∧
      (RepresentativeSelector.init 0 0 t).information_weight = 0 ∧
      (RepresentativeSelector.init 0 0 t).source_reliability_weight = 0 := by
  refine ⟨?_, ?_, ?_⟩
  · simp only [RepresentativeSelector.init, if_pos h]
    rw [div_add_div_same, div_self (ne_of_gt h)]
  · norm_num [RepresentativeSelector.init]
  · norm_num [RepresentativeSelector.init]

/-- Witness for C5: concrete weights 0.5/0.5 normalize to a sum of 1. -/
theorem C5_weight_normalization_witness :
    (RepresentativeSelector.init (1/2) (1/2) none).information_weight +
        (RepresentativeSelector.init (1/2) (1/2) none).source_reliability_weight = 1 ∧
      (RepresentativeSelector.init 0 0 none).information_weight = 0 ∧
      (RepresentativeSelector.init 0 0 none).source_reliability_weight = 0 :=
  C5_weight_normalization (1/2) (1/2) none (by norm_num)

/-- C6: tie-break stability of `select`.  A singleton candidate list is
returned directly, and on any non-empty list `select` returns the
candidate at an index whose score dominates every candidate, every
earlier index scoring strictly below it  —  so when the maximum score is
attained several times, the first such candidate in input order wins. -/
theorem C6_tie_break_stability :
    (∀ (sel : RepresentativeSelector) (a : Article), sel.select [a] = some a) ∧
    (∀ (sel : RepresentativeSelector) (articles : List Article), articles ≠ [] →
      ∃ (i : ℕ) (h : i < articles.length),
        sel.select articles = some (articles.get ⟨i, h⟩) ∧
        (∀ b ∈ articles,
          sel.score_article b ≤ sel.score_article (articles.get ⟨i, h⟩)) ∧
        (∀ (j : ℕ) (hj : j < articles.length), j < i →
          sel.score_article (articles.get ⟨j, hj⟩) <
            sel.score_article (articles.get ⟨i, h⟩))) := by
  constructor
  · intro sel a
    simp [RepresentativeSelector.select]
  · intro sel articles hne
    exact select_spec sel articles hne

/-- Witness for C6: concrete two-candidate list with equal scores. -/
theorem C6_tie_break_stability_witness :
    ∃ (i : ℕ) (h : i < ([{ id := 1, title := "t", description := "", source := "s1" },
        { id := 2, title := "t", description := "", source := "s2" }] : List Article).length),
      (RepresentativeSelector.init (1/2) (1/2) none).select
          [{ id := 1, title := "t", description := "", source := "s1" },
           { id := 2, title := "t", description := "", source := "s2" }] =
        some (([{ id := 1, title := "t", description := "", source := "s1" },
          { id := 2, title := "t", description := "", source := "s2" }] : List Article).get ⟨i, h⟩) ∧
      (∀ b ∈ ([{ id := 1, title := "t", description := "", source := "s1" },
          { id := 2, title := "t", description := "", source := "s2" }] : List Article),
        (RepresentativeSelector.init (1/2) (1/2) none).score_article b ≤
          (RepresentativeSelector.init (1/2) (1/2) none).score_article
            (([{ id := 1, title := "t", description := "", source := "s1" },
              { id := 2, title := "t", description := "", source := "s2" }] : List Article).get ⟨i, h⟩)) ∧
      (∀ (j : ℕ) (hj : j < ([{ id := 1, title := "t", description := "", source := "s1" },
          { id := 2, title := "t", description := "", source := "s2" }] : List Article).length), j < i →
        (RepresentativeSelector.init (1/2) (1/2) none).score_article
            (([{ id := 1, title := "t", description := "", source := "s1" },
              { id := 2, title := "t", description := "", source := "s2" }] : List Article).get ⟨j, hj⟩) <
          (RepresentativeSelector.init (1/2) (1/2) none).score_article
            (([{ id := 1, title := "t", description := "", source := "s1" },
              { id := 2, title := "t", description := "", source := "s2" }] : List Article).get ⟨i, h⟩)) :=
  C6_tie_break_stability.2 (RepresentativeSelector.init (1/2) (1/2) none)
    [{ id := 1, title := "t", description := "", source := "s1" },
     { id := 2, title := "t", description := "", source := "s2" }] (by simp)

/-- Scenario-A selector: equal weights 0.5/0.5 and a single trusted
source. -/
def selA : RepresentativeSelector :=
  RepresentativeSelector.init (1/2) (1/2) (some ["Trusted"])

/-- Scenario-A candidate 1: trusted source, 10-character title, empty
description. -/
def candA1 : Article :=
  { id := 1, title := strOfLen 10 't', description := "", source := "Trusted" }

/-- Scenario-A candidate 2: untrusted source, 400-character title and
400-character description. -/
def candA2 : Article :=
  { id := 2, title := strOfLen 400 'a', description := strOfLen 400 'b', source := "Other" }

/-- C7: the translated `_score_article` equals the reference formula
`wInfo * min((len(title)+len(description))/500, 1) + wSource * (1 if
trusted else 0.3)` for every selector and article; and in scenario A the
scores are 0.51 and 0.65, so `select` picks candidate 2. -/
theorem C7_score_formula_and_scenario_A :
    (∀ (sel : RepresentativeSelector) (a : Article),
      sel.score_article a = specScoreFormula sel a) ∧
    selA.score_article candA1 = 51/100 ∧
    selA.score_article candA2 = 13/20 ∧
    selA.select [candA1, candA2] = some candA2 := by
  have hsel : selA = ⟨1/2, 1/2, ["Trusted"]⟩ := by
    show RepresentativeSelector.init (1/2) (1/2) (some ["Trusted"]) = _
    norm_num [RepresentativeSelector.init]
  have h1 : selA.score_article candA1 = 51/100 := by
    rw [hsel]
    norm_num [RepresentativeSelector.score_article,
      RepresentativeSelector.calculate_information_score,
      RepresentativeSelector.calculate_reliability_score, candA1, strOfLen_length]
  have h2 : selA.score_article candA2 = 13/20 := by
    rw [hsel]
    norm_num [RepresentativeSelector.score_article,
      RepresentativeSelector.calculate_information_score,
      RepresentativeSelector.calculate_reliability_score, candA2, strOfLen_length]
    rw [if_neg (by decide : ¬("Other" : String) = "Trusted")]
    norm_num
  refine ⟨?_, h1, h2, ?_⟩
  · intro sel a
    rfl
  · show ((sortScoredDesc ([candA1, candA2].map fun x =>
        (selA.score_article x, x))).head?).map Prod.snd = some candA2
    simp only [List.map_cons, List.map_nil, h1, h2]
    norm_num [sortScoredDesc, insertScoredDesc]

/-- One step of the dictionary build in `select_from_clusters`: append an
article to the (insertion-ordered) bucket of its cluster id, creating the
bucket on first sight of the id. -/
def addToCluster (clusters : List (Int × List Article)) (c : Int) (a : Article) :
    List (Int × List Article) :=
  match clusters with
  | [] => [(c, [a])]
  | (k, l) :: rest =>
    if k = c then (k, l ++ [a]) :: rest else (k, l) :: addToCluster rest c a

/-- Embeds the grouping loop of `select_from_clusters`: iterate over
`zip(articles, cluster_ids)`, skipping outliers (−1) and appending every
other article to its cluster bucket (a Python dict in insertion order). -/
def groupByCluster (pairs : List (Article × Int)) : List (Int × List Article) :=
  pairs.foldl (fun acc p => if p.2 = -1 then acc else addToCluster acc p.2 p.1) []

/-- Embeds `RepresentativeSelector.select_from_clusters`: group the
articles by cluster id (outliers skipped) and run `select` on each
bucket, keeping the successful results keyed by cluster id. -/
def RepresentativeSelector.select_from_clusters (sel : RepresentativeSelector)
    (articles : List Article) (cluster_ids : List Int) : List (Int × Article) :=
  (groupByCluster (articles.zip cluster_ids)).filterMap
    (fun p => (sel.select p.2).map (fun r => (p.1, r)))

lemma lookup_cons_int {β : Type} (c k : Int) (v : β) (rest : List (Int × β)) :
    List.lookup c ((k, v) :: rest) = if c = k then some v else List.lookup c rest := by
  by_cases h : c = k
  · subst h; simp [List.lookup]
  · have hb : (c == k) = false := beq_eq_false_iff_ne.mpr h
    simp [List.lookup, hb, h]

lemma addToCluster_keys (acc : List (Int × List Article)) (c : Int) (a : Article) :
    (addToCluster acc c a).map Prod.fst =
      if c ∈ acc.map Prod.fst then acc.map Prod.fst else acc.map Prod.fst ++ [c] := by
  induction acc with
  | nil => simp [addToCluster]
  | cons p rest ih =>
    obtain ⟨k, l⟩ := p
    by_cases hk : k = c
    · subst hk
      simp [addToCluster]
    · simp only [addToCluster, if_neg hk, List.map_cons]
      rw [ih]
      by_cases hc : c ∈ rest.map Prod.fst
      · simp [hc, Ne.symm hk]
      · simp [hc, Ne.symm hk]

lemma addToCluster_keys_nodup {acc : List (Int × List Article)} (c : Int) (a : Article)
    (h : (acc.map Prod.fst).Nodup) : ((addToCluster acc c a).map Prod.fst).Nodup := by
  rw [addToCluster_keys]
  by_cases hc : c ∈ acc.map Prod.fst
  · simpa [hc] using h
  · simp only [if_neg hc]
    exact List.Nodup.append h (List.nodup_singleton c) (by simpa using hc)

lemma addToCluster_lookup_eq (acc : List (Int × List Article)) (c : Int) (a : Article) :
    (addToCluster acc c a).lookup c = some (((acc.lookup c).getD []) ++ [a]) := by
  induction acc with
  | nil => simp [addToCluster, List.lookup]
  | cons p rest ih =>
    obtain ⟨k, l⟩ := p
    by_cases hk : k = c
    · subst hk
      simp [addToCluster, lookup_cons_int]
    · simp only [addToCluster, if_neg hk]
      rw [lookup_cons_int, if_neg (Ne.symm hk), ih, lookup_cons_int, if_neg (Ne.symm hk)]

lemma addToCluster_lookup_ne (acc : List (Int × List Article)) {c c' : Int} (a : Article)
    (h : c' ≠ c) : (addToCluster acc c a).lookup c' = acc.lookup c' := by
  induction acc with
  | nil =>
    simp only [addToCluster]
    rw [lookup_cons_int, if_neg h]
  | cons p rest ih =>
    obtain ⟨k, l⟩ := p
    by_cases hk : k = c
    · subst hk
      have hstep : addToCluster ((k, l) :: rest) k a = (k, l ++ [a]) :: rest := by
        simp [addToCluster]
      rw [hstep, lookup_cons_int, lookup_cons_int, if_neg h, if_neg h]
    · simp only [addToCluster]
      rw [if_neg hk, lookup_cons_int, lookup_cons_int]
      by_cases hck : c' = k
      · rw [if_pos hck, if_pos hck]
      · rw [if_neg hck, if_neg hck]
        exact ih

lemma addToCluster_mem_nonempty {acc : List (Int × List Article)} (c : Int) (a : Article)
    (h : ∀ p ∈ acc, p.2 ≠ []) : ∀ p ∈ addToCluster acc c a, p.2 ≠ [] := by
  induction acc with
  | nil =>
    intro p hp
    simp only [addToCluster, List.mem_singleton] at hp
    subst hp
    simp
  | cons q rest ih =>
    obtain ⟨k, l⟩ := q
    intro p hp
    by_cases hk : k = c
    · simp only [addToCluster] at hp
      rw [if_pos hk] at hp
      rcases List.mem_cons.mp hp with hp1 | hp2
      · subst hp1; simp
      · exact h p (List.mem_cons_of_mem _ hp2)
    · simp only [addToCluster] at hp
      rw [if_neg hk] at hp
      rcases List.mem_cons.mp hp with hp1 | hp2
      · subst hp1
        exact h _ (List.mem_cons_self _ _)
      · exact ih (fun q hq => h q (List.mem_cons_of_mem _ hq)) p hp2

lemma mem_of_lookup_eq_some {β : Type} :
    ∀ (l : List (Int × β)) (c : Int) (v : β), l.lookup c = some v → (c, v) ∈ l := by
  intro l
  induction l with
  | nil => intro c v h; simp [List.lookup] at h
  | cons p rest ih =>
    intro c v h
    obtain ⟨k, w⟩ := p
    rw [lookup_cons_int] at h
    by_cases hck : c = k
    · rw [if_pos hck] at h
      obtain rfl : w = v := by simpa using h
      subst hck
      exact List.mem_cons_self _ _
    · rw [if_neg hck] at h
      exact List.mem_cons_of_mem _ (ih c v h)

lemma lookup_eq_none_of_not_mem_keys {β : Type} :
    ∀ (l : List (Int × β)) (c : Int), c ∉ l.map Prod.fst → l.lookup c = none := by
  intro l
  induction l with
  | nil => intro c _; simp [List.lookup]
  | cons p rest ih =>
    intro c hc
    obtain ⟨k, w⟩ := p
    simp only [List.map_cons, List.mem_cons] at hc
    push_neg at hc
    rw [lookup_cons_int, if_neg hc.1]
    exact ih c hc.2

lemma groupFold_mem_of :
    ∀ (pairs : List (Article × Int)) (acc : List (Int × List Article)) (c : Int)
      (l : List Article) (a : Article),
      ((pairs.foldl (fun acc p => if p.2 = -1 then acc else addToCluster acc p.2 p.1)
          acc).lookup c) = some l →
      a ∈ l → (a, c) ∈ pairs ∨ ∃ l₀, acc.lookup c = some l₀ ∧ a ∈ l₀ := by
  intro pairs
  induction pairs with
  | nil =>
    intro acc c l a hl ha
    right
    exact ⟨l, hl, ha⟩
  | cons q rest ih =>
    intro acc c l a hl ha
    obtain ⟨b, cb⟩ := q
    simp only [List.foldl_cons] at hl
    by_cases hcb : cb = -1
    · rw [if_pos hcb] at hl
      rcases ih _ c l a hl ha with h1 | h2
      · exact Or.inl (List.mem_cons_of_mem _ h1)
      · exact Or.inr h2
    · rw [if_neg hcb] at hl
      rcases ih _ c l a hl ha with h1 | h2
      · exact Or.inl (List.mem_cons_of_mem _ h1)
      · obtain ⟨l₀, hl₀, ha₀⟩ := h2
        by_cases hc : c = cb
        · subst hc
          rw [addToCluster_lookup_eq] at hl₀
          obtain rfl : ((acc.lookup c).getD []) ++ [b] = l₀ := by simpa using hl₀
          rcases List.mem_append.mp ha₀ with hin | hb
          · right
            cases hacc : acc.lookup c with
            | none => rw [hacc] at hin; simp at hin
            | some l₁ =>
              rw [hacc] at hin
              exact ⟨l₁, rfl, by simpa using hin⟩
          · obtain rfl : a = b := by simpa using hb
            exact Or.inl (List.mem_cons_self _ _)
        · rw [addToCluster_lookup_ne _ _ hc] at hl₀
          exact Or.inr ⟨l₀, hl₀, ha₀⟩

lemma groupFold_key_of :
    ∀ (pairs : List (Article × Int)) (acc : List (Int × List Article)) (c : Int)
      (l : List Article),
      ((pairs.foldl (fun acc p => if p.2 = -1 then acc else addToCluster acc p.2 p.1)
          acc).lookup c) = some l →
      acc.lookup c = none → c ≠ -1 ∧ ∃ b, (b, c) ∈ pairs := by
  intro pairs
  induction pairs with
  | nil =>
    intro acc c l hl hnone
    simp only [List.foldl_nil] at hl
    rw [hnone] at hl
    cases hl
  | cons q rest ih =>
    intro acc c l hl hnone
    obtain ⟨b, cb⟩ := q
    simp only [List.foldl_cons] at hl
    by_cases hcb : cb = -1
    · rw [if_pos hcb] at hl
      obtain ⟨hc, b', hb'⟩ := ih _ c l hl hnone
      exact ⟨hc, b', List.mem_cons_of_mem _ hb'⟩
    · rw [if_neg hcb] at hl
      by_cases hc : c = cb
      · refine ⟨hc ▸ hcb, b, ?_⟩
        rw [hc]
        exact List.mem_cons_self _ _
      · have hnone2 : (addToCluster acc cb b).lookup c = none := by
          rw [addToCluster_lookup_ne _ _ hc]
          exact hnone
        obtain ⟨hcne, b', hb'⟩ := ih _ c l hl hnone2
        exact ⟨hcne, b', List.mem_cons_of_mem _ hb'⟩

lemma groupFold_exists :
    ∀ (pairs : List (Article × Int)) (acc : List (Int × List Article)) (c : Int),
      c ≠ -1 →
      ((∃ b, (b, c) ∈ pairs) ∨ ∃ l, acc.lookup c = some l) →
      ∃ l, ((pairs.foldl (fun acc p => if p.2 = -1 then acc else addToCluster acc p.2 p.1)
          acc).lookup c) = some l := by
  intro pairs
  induction pairs with
  | nil =>
    intro acc c _ h
    rcases h with ⟨b, hb⟩ | h
    · simp at hb
    · simpa using h
  | cons q rest ih =>
    intro acc c hc h
    obtain ⟨b', cb⟩ := q
    simp only [List.foldl_cons]
    rcases h with ⟨b, hb⟩ | ⟨l, hl⟩
    · rcases List.mem_cons.mp hb with heq | hmem
      · obtain ⟨rfl, rfl⟩ : b = b' ∧ c = cb := by simpa [Prod.ext_iff] using heq
        rw [if_neg hc]
        apply ih _ _ hc
        right
        rw [addToCluster_lookup_eq]
        exact ⟨_, rfl⟩
      · by_cases hcb : cb = -1
        · rw [if_pos hcb]
          exact ih _ _ hc (Or.inl ⟨b, hmem⟩)
        · rw [if_neg hcb]
          exact ih _ _ hc (Or.inl ⟨b, hmem⟩)
    · by_cases hcb : cb = -1
      · rw [if_pos hcb]
        exact ih _ _ hc (Or.inr ⟨l, hl⟩)
      · rw [if_neg hcb]
        apply ih _ _ hc
        right
        by_cases hccb : c = cb
        · subst hccb
          rw [addToCluster_lookup_eq]
          exact ⟨_, rfl⟩
        · rw [addToCluster_lookup_ne _ _ hccb]
          exact ⟨l, hl⟩

lemma groupFold_nonempty :
    ∀ (pairs : List (Article × Int)) (acc : List (Int × List Article)),
      (∀ p ∈ acc, p.2 ≠ []) →
      ∀ p ∈ (pairs.foldl (fun acc p => if p.2 = -1 then acc else addToCluster acc p.2 p.1)
          acc), p.2 ≠ [] := by
  intro pairs
  induction pairs with
  | nil =>
    intro acc hacc p hp
    simp only [List.foldl_nil] at hp
    exact hacc p hp
  | cons q rest ih =>
    intro acc hacc p hp
    obtain ⟨b, cb⟩ := q
    simp only [List.foldl_cons] at hp
    by_cases hcb : cb = -1
    · rw [if_pos hcb] at hp
      exact ih _ hacc p hp
    · rw [if_neg hcb] at hp
      exact ih _ (addToCluster_mem_nonempty cb b hacc) p hp

lemma groupFold_keys_nodup :
    ∀ (pairs : List (Article × Int)) (acc : List (Int × List Article)),
      ((acc.map Prod.fst).Nodup) →
      (((pairs.foldl (fun acc p => if p.2 = -1 then acc else addToCluster acc p.2 p.1)
          acc)).map Prod.fst).Nodup := by
  intro pairs
  induction pairs with
  | nil =>
    intro acc hacc
    simpa using hacc
  | cons q rest ih =>
    intro acc hacc
    obtain ⟨b, cb⟩ := q
    simp only [List.foldl_cons]
    by_cases hcb : cb = -1
    · rw [if_pos hcb]
      exact ih _ hacc
    · rw [if_neg hcb]
      exact ih _ (addToCluster_keys_nodup cb b hacc)

lemma lookup_nil_int {β : Type} (c : Int) :
    List.lookup c ([] : List (Int × β)) = none := rfl

lemma lookup_filterMap_select (sel : RepresentativeSelector) :
    ∀ (groups : List (Int × List Article)), ((groups.map Prod.fst).Nodup) →
      ∀ (c : Int),
        ((groups.filterMap (fun p => (sel.select p.2).map (fun r => (p.1, r)))).lookup c)
          = (groups.lookup c).bind (fun l => sel.select l) := by
  intro groups
  induction groups with
  | nil => intro _ c; rfl
  | cons q rest ih =>
    intro hnd c
    obtain ⟨k, l⟩ := q
    simp only [List.map_cons, List.nodup_cons] at hnd
    obtain ⟨hknotin, hndrest⟩ := hnd
    cases hsel : sel.select l with
    | some r =>
      have hstep : (((k, l) :: rest).filterMap
          (fun p => (sel.select p.2).map (fun r => (p.1, r)))) =
          (k, r) :: rest.filterMap (fun p => (sel.select p.2).map (fun r => (p.1, r))) := by
        simp [List.filterMap_cons, hsel]
      rw [hstep, lookup_cons_int, lookup_cons_int]
      by_cases hck : c = k
      · rw [if_pos hck, if_pos hck]
        simp [hsel]
      · rw [if_neg hck, if_neg hck]
        exact ih hndrest c
    | none =>
      have hstep : (((k, l) :: rest).filterMap
          (fun p => (sel.select p.2).map (fun r => (p.1, r)))) =
          rest.filterMap (fun p => (sel.select p.2).map (fun r => (p.1, r))) := by
        simp [List.filterMap_cons, hsel]
      rw [hstep, lookup_cons_int]
      by_cases hck : c = k
      · rw [if_pos hck, ih hndrest c, hck, lookup_eq_none_of_not_mem_keys rest k hknotin]
        simp [hsel]
      · rw [if_neg hck]
        exact ih hndrest c

/-- A representative looked up in `select_from_clusters` is the result of
`select` on the bucket of its non-outlier cluster, hence a zipped
(article, id) pair of the input. -/
lemma select_from_clusters_lookup_mem (sel : RepresentativeSelector)
    (articles : List Article) (cluster_ids : List Int) (c : Int) (rep : Article)
    (h : (sel.select_from_clusters articles cluster_ids).lookup c = some rep) :
    c ≠ -1 ∧ (rep, c) ∈ articles.zip cluster_ids := by
  have hnd : (((groupByCluster (articles.zip cluster_ids))).map Prod.fst).Nodup :=
    groupFold_keys_nodup _ [] (by simp)
  have h2 : ((groupByCluster (articles.zip cluster_ids)).lookup c).bind
      (fun l => sel.select l) = some rep := by
    rw [← lookup_filterMap_select sel _ hnd c]
    exact h
  cases hg : (groupByCluster (articles.zip cluster_ids)).lookup c with
  | none =>
    rw [hg] at h2
    simp at h2
  | some l =>
    rw [hg] at h2
    have hsel2 : sel.select l = some rep := h2
    have hmem : rep ∈ l := select_mem hsel2
    have h1 := groupFold_mem_of (articles.zip cluster_ids) [] c l rep hg hmem
    have hkey := groupFold_key_of (articles.zip cluster_ids) [] c l hg (lookup_nil_int c)
    rcases h1 with h1 | h1
    · exact ⟨hkey.1, h1⟩
    · obtain ⟨l₀, hl₀, -⟩ := h1
      rw [lookup_nil_int] at hl₀
      cases hl₀

/-- Every non-outlier cluster id that occurs in the zipped input owns a
representative in `select_from_clusters`. -/
lemma select_from_clusters_lookup_exists (sel : RepresentativeSelector)
    (articles : List Article) (cluster_ids : List Int) (c : Int) (hc : c ≠ -1)
    (hmem : ∃ a, (a, c) ∈ articles.zip cluster_ids) :
    ∃ rep, (sel.select_from_clusters articles cluster_ids).lookup c = some rep := by
  have hnd : (((groupByCluster (articles.zip cluster_ids))).map Prod.fst).Nodup :=
    groupFold_keys_nodup _ [] (by simp)
  obtain ⟨l, hl⟩ := groupFold_exists (articles.zip cluster_ids) [] c hc (Or.inl hmem)
  have hlne : l ≠ [] :=
    groupFold_nonempty (articles.zip cluster_ids) [] (by simp)
      (c, l) (mem_of_lookup_eq_some _ c l hl)
  obtain ⟨r, hr⟩ := select_isSome sel hlne
  refine ⟨r, ?_⟩
  show ((groupByCluster (articles.zip cluster_ids)).filterMap
      (fun p => (sel.select p.2).map (fun r => (p.1, r)))).lookup c = some r
  rw [lookup_filterMap_select sel _ hnd c]
  have hl2 : (groupByCluster (articles.zip cluster_ids)).lookup c = some l := hl
  rw [hl2]
  exact hr

/-- C10: membership guarantees of the chooser.  `select` returns `none`
exactly on the empty list and otherwise an element of its input; and for
equal-length inputs, `select_from_clusters` gives every non-negative
cluster id occurring in the assignments a representative drawn from a
position assigned to that very id, while ids of value −1 never enter the
result. -/
theorem C10_chooser_membership :
    (∀ (sel : RepresentativeSelector), sel.select [] = none) ∧
    (∀ (sel : RepresentativeSelector) (articles : List Article), articles ≠ [] →
      ∃ a, sel.select articles = some a ∧ a ∈ articles) ∧
    (∀ (sel : RepresentativeSelector) (articles : List Article) (cluster_ids : List Int),
      articles.length = cluster_ids.length →
      (∀ c : Int, 0 ≤ c → c ∈ cluster_ids →
        ∃ rep, (sel.select_from_clusters articles cluster_ids).lookup c = some rep) ∧
      (∀ (c : Int) (rep : Article),
        (sel.select_from_clusters articles cluster_ids).lookup c = some rep →
        c ≠ -1 ∧ ∃ (i : ℕ) (h1 : i < articles.length) (h2 : i < cluster_ids.length),
          articles.get ⟨i, h1⟩ = rep ∧ cluster_ids.get ⟨i, h2⟩ = c)) := by
  refine ⟨?_, ?_, ?_⟩
  · intro sel
    rfl
  · intro sel articles hne
    obtain ⟨r, hr⟩ := select_isSome sel hne
    exact ⟨r, hr, select_mem hr⟩
  · intro sel articles cluster_ids hlen
    constructor
    · intro c hc0 hcmem
      obtain ⟨i, hi⟩ := List.mem_iff_get.mp hcmem
      have hia : (i : ℕ) < articles.length := by rw [hlen]; exact i.isLt
      have hzip : (articles.get ⟨i, hia⟩, c) ∈ articles.zip cluster_ids := by
        rw [← hi]
        have hzi : (i : ℕ) < (articles.zip cluster_ids).length := by
          simp [List.length_zip, hlen]
        have : (articles.zip cluster_ids).get ⟨i, hzi⟩ =
            (articles.get ⟨i, hia⟩, cluster_ids.get i) := by
          simp [List.get_eq_getElem, List.getElem_zip]
        rw [← this]
        exact List.get_mem _ _ _
      exact select_from_clusters_lookup_exists sel articles cluster_ids c
        (by intro hh; rw [hh] at hc0; norm_num at hc0) ⟨_, hzip⟩
    · intro c rep h
      obtain ⟨hc, hmem⟩ := select_from_clusters_lookup_mem sel articles cluster_ids c rep h
      obtain ⟨i, hi⟩ := List.mem_iff_get.mp hmem
      have hia : (i : ℕ) < articles.length := by
        have := i.isLt
        simp only [List.length_zip] at this
        omega
      have hic : (i : ℕ) < cluster_ids.length := by rw [← hlen]; exact hia
      have hgz : (articles.zip cluster_ids).get i =
          (articles.get ⟨i, hia⟩, cluster_ids.get ⟨i, hic⟩) := by
        simp [List.get_eq_getElem, List.getElem_zip]
      rw [hgz] at hi
      refine ⟨hc, i, hia, hic, ?_, ?_⟩
      · exact congrArg Prod.fst hi
      · exact congrArg Prod.snd hi

/-- Witness for C10: a concrete three-article batch with one cluster and
one outlier. -/
theorem C10_chooser_membership_witness :
    (∀ c : Int, 0 ≤ c →
      c ∈ ([0, 0, -1] : List Int) →
      ∃ rep, ((RepresentativeSelector.init (1/2) (1/2) none).select_from_clusters
          [{ id := 1, title := "a", description := "", source := "s" },
           { id := 2, title := "b", description := "", source := "s" },
           { id := 3, title := "c", description := "", source := "s" }]
          [0, 0, -1]).lookup c = some rep) ∧
    (∀ (c : Int) (rep : Article),
      ((RepresentativeSelector.init (1/2) (1/2) none).select_from_clusters
          [{ id := 1, title := "a", description := "", source := "s" },
           { id := 2, title := "b", description := "", source := "s" },
           { id := 3, title := "c", description := "", source := "s" }]
          [0, 0, -1]).lookup c = some rep →
      c ≠ -1 ∧ ∃ (i : ℕ)
        (h1 : i < ([{ id := 1, title := "a", description := "", source := "s" },
          { id := 2, title := "b", description := "", source := "s" },
          { id := 3, title := "c", description := "", source := "s" }] : List Article).length)
        (h2 : i < ([0, 0, -1] : List Int).length),
        ([{ id := 1, title := "a", description := "", source := "s" },
          { id := 2, title := "b", description := "", source := "s" },
          { id := 3, title := "c", description := "", source := "s" }] : List Article).get ⟨i, h1⟩ = rep ∧
        ([0, 0, -1] : List Int).get ⟨i, h2⟩ = c) :=
  C10_chooser_membership.2.2 (RepresentativeSelector.init (1/2) (1/2) none)
    [{ id := 1, title := "a", description := "", source := "s" },
     { id := 2, title := "b", description := "", source := "s" },
     { id := 3, title := "c", description := "", source := "s" }]
    [0, 0, -1] (by simp)

/-- Parsed JSON payload of one classification API response (the output of
`ClassificationService._parse_response`): category and tag lists plus an
optional confidence (a missing JSON key is `none`). -/
structure RawClassification where
  categories : List String
  tags : List String
  confidence : Option Int
deriving DecidableEq

/-- Result dictionary returned by `ClassificationService.classify`
(`errorMsg` is the extra `error` key of the fallback dictionary). -/
structure ClassificationResult where
  categories : List String
  tags : List String
  confidence : Option Int
  errorMsg : Option String
deriving DecidableEq

/-- The fixed category enumeration `ClassificationService.VALID_CATEGORIES`. -/
def VALID_CATEGORIES : List String :=
  ["정책/규제", "시장동향", "금융/투자", "부동산개발", "기업/프로젝트", "법률/소송", "경제지표", "기타"]

/-- Embeds `ClassificationService.classify`.  The whole body sits in one
`try/except`; the API call together with response parsing is the
`Except`-valued argument.  On success the categories are filtered against
`VALID_CATEGORIES`, an empty filtered list falling back to ["기타"] with
the confidence capped at 50 (missing confidence defaulting to 50); on any
error the fixed fallback (categories ["기타"], no tags, confidence 0) is
returned with the error string attached. -/
def ClassificationService.classify (apiResult : Except String RawClassification) :
    ClassificationResult :=
  match apiResult with
  | .ok r =>
    let cats := r.categories.filter (fun cat => decide (cat ∈ VALID_CATEGORIES))
    if cats.isEmpty then
      { categories := ["기타"]
        tags := r.tags
        confidence := some (min (r.confidence.getD 50) 50)
        errorMsg := none }
    else
      { categories := cats
        tags := r.tags
        confidence := r.confidence
        errorMsg := none }
  | .error e =>
    { categories := ["기타"]
      tags := []
      confidence := some 0
      errorMsg := some e }

/-- One article's state as persisted by `DataProcessor._update_database`:
cluster id (`none` for outliers), duplicate count, representative flag,
the classification fields (`none` when never assigned) and the advanced
status. -/
structure PersistedRow where
  id : Int
  duplicate_cluster_id : Option Int
  duplicate_count : Int
  cluster_representative : Bool
  classified_categories : Option (List String)
  tags : Option (List String)
  classification_confidence : Option Int
  status : String
deriving DecidableEq

/-- The loop body of `_update_database` for one article and its cluster
id: a clustered article stores its cluster id and the count of that id in
the whole assignment array, is flagged representative exactly when the
representative chosen for its cluster carries its id, and, when flagged,
receives the classification of its cluster (missing confidence
defaulting to 0); an outlier stores no cluster id, count 1 and the
representative flag; every article's status advances to processed. -/
def persistRow (cluster_ids : List Int) (reps : List (Int × Article))
    (classifications : List (Int × ClassificationResult)) (a : Article) (c : Int) :
    PersistedRow :=
  if c ≠ -1 then
    let isRep : Bool :=
      match reps.lookup c with
      | some rep => decide (rep.id = a.id)
      | none => false
    { id := a.id
      duplicate_cluster_id := some c
      duplicate_count := (cluster_ids.count c : Int)
      cluster_representative := isRep
      classified_categories :=
        if isRep then (classifications.lookup c).map (fun cl => cl.categories) else none
      tags := if isRep then (classifications.lookup c).map (fun cl => cl.tags) else none
      classification_confidence :=
        if isRep then (classifications.lookup c).map (fun cl => cl.confidence.getD 0)
        else none
      status := "processed" }
  else
    { id := a.id
      duplicate_cluster_id := none
      duplicate_count := 1
      cluster_representative := true
      classified_categories := none
      tags := none
      classification_confidence := none
      status := "processed" }

/-- Embeds `DataProcessor._update_database`: apply the loop body to every
(article, cluster id) pair of the batch. -/
def updateDatabase (articles : List Article) (cluster_ids : List Int)
    (reps : List (Int × Article))
    (classifications : List (Int × ClassificationResult)) : List PersistedRow :=
  (articles.zip cluster_ids).map
    (fun p => persistRow cluster_ids reps classifications p.1 p.2)

/-- The rows persisted by one pipeline run: `_update_database` applied to
the representatives chosen by `select_from_clusters` on the same batch,
exactly as `DataProcessor.run` wires steps 4 and 6 together. -/
def pipelineRows (sel : RepresentativeSelector) (articles : List Article)
    (cluster_ids : List Int)
    (classifications : List (Int × ClassificationResult)) : List PersistedRow :=
  updateDatabase articles cluster_ids
    (sel.select_from_clusters articles cluster_ids) classifications

lemma countP_eq_one_of_nodup_key {α β : Type} (f : α → β) :
    ∀ (l : List α) (p : α → Bool) (x : α), ((l.map f).Nodup) → x ∈ l → p x = true →
      (∀ y ∈ l, p y = true → f y = f x) → l.countP p = 1 := by
  intro l
  induction l with
  | nil =>
    intro p x _ hx
    simp at hx
  | cons b t ih =>
    intro p x hnd hx hpx hkey
    simp only [List.map_cons, List.nodup_cons] at hnd
    obtain ⟨hbnot, hndt⟩ := hnd
    rcases List.mem_cons.mp hx with rfl | hxt
    · rw [List.countP_cons_of_pos _ _ hpx]
      have ht0 : t.countP p = 0 := by
        rw [List.countP_eq_zero]
        intro y hy hpy
        exact hbnot ((hkey y (List.mem_cons_of_mem _ hy) hpy) ▸ List.mem_map_of_mem f hy)
      rw [ht0]
    · have hpb : ¬ p b = true := by
        intro hpb
        have hfb : f b = f x := hkey b (List.mem_cons_self _ _) hpb
        exact hbnot (hfb ▸ List.mem_map_of_mem f hxt)
      rw [List.countP_cons_of_neg _ _ (by simpa using hpb)]
      exact ih p x hndt hxt hpx (fun y hy hpy => hkey y (List.mem_cons_of_mem _ hy) hpy)

lemma persistRow_outlier (cluster_ids : List Int) (reps : List (Int × Article))
    (classifications : List (Int × ClassificationResult)) (a : Article) :
    persistRow cluster_ids reps classifications a (-1) =
      { id := a.id
        duplicate_cluster_id := none
        duplicate_count := 1
        cluster_representative := true
        classified_categories := none
        tags := none
        classification_confidence := none
        status := "processed" } := by
  simp [persistRow]

lemma persistRow_clustered (cluster_ids : List Int) (reps : List (Int × Article))
    (classifications : List (Int × ClassificationResult)) (a : Article) (c : Int)
    (hc : c ≠ -1) :
    (persistRow cluster_ids reps classifications a c).duplicate_cluster_id = some c ∧
    (persistRow cluster_ids reps classifications a c).duplicate_count =
      (cluster_ids.count c : Int) ∧
    (persistRow cluster_ids reps classifications a c).cluster_representative =
      (match reps.lookup c with
       | some rep => decide (rep.id = a.id)
       | none => false) := by
  refine ⟨?_, ?_, ?_⟩ <;> simp [persistRow, if_pos hc]

/-- C1: invariants of one persisted batch, with the representatives
chosen by `select_from_clusters` on the same batch (as `DataProcessor.run`
wires the stages) and all article ids pairwise distinct: every member of a
cluster id c ≥ 0 is written with that cluster id and with duplicate count
equal to the number of assignments equal to c; among the rows written
with cluster id c exactly one carries the representative flag; and every
article assigned −1 is written with no cluster id, count 1 and the
representative flag. -/
theorem C1_persisted_batch_invariants
    (sel : RepresentativeSelector) (articles : List Article) (cluster_ids : List Int)
    (classifications : List (Int × ClassificationResult))
    (hlen : articles.length = cluster_ids.length)
    (hnodup : ((articles.map Article.id).Nodup)) :
    (∀ (i : ℕ) (h1 : i < articles.length) (h2 : i < cluster_ids.length)
        (hr : i < (pipelineRows sel articles cluster_ids classifications).length),
      0 ≤ cluster_ids.get ⟨i, h2⟩ →
      ((pipelineRows sel articles cluster_ids classifications).get
          ⟨i, hr⟩).duplicate_cluster_id = some (cluster_ids.get ⟨i, h2⟩) ∧
      ((pipelineRows sel articles cluster_ids classifications).get
          ⟨i, hr⟩).duplicate_count =
        (cluster_ids.count (cluster_ids.get ⟨i, h2⟩) : Int)) ∧
    (∀ c : Int, 0 ≤ c → c ∈ cluster_ids →
      (pipelineRows sel articles cluster_ids classifications).countP
        (fun r => decide (r.duplicate_cluster_id = some c) &&
          r.cluster_representative) = 1) ∧
    (∀ (i : ℕ) (h2 : i < cluster_ids.length)
        (hr : i < (pipelineRows sel articles cluster_ids classifications).length),
      cluster_ids.get ⟨i, h2⟩ = -1 →
      ((pipelineRows sel articles cluster_ids classifications).get
          ⟨i, hr⟩).duplicate_cluster_id = none ∧
      ((pipelineRows sel articles cluster_ids classifications).get
          ⟨i, hr⟩).duplicate_count = 1 ∧
      ((pipelineRows sel articles cluster_ids classifications).get
          ⟨i, hr⟩).cluster_representative = true) := by
  have hrow : ∀ (i : ℕ) (h1 : i < articles.length) (h2 : i < cluster_ids.length)
      (hr : i < (pipelineRows sel articles cluster_ids classifications).length),
      (pipelineRows sel articles cluster_ids classifications).get ⟨i, hr⟩ =
        persistRow cluster_ids (sel.select_from_clusters articles cluster_ids)
          classifications (articles.get ⟨i, h1⟩) (cluster_ids.get ⟨i, h2⟩) := by
    intro i h1 h2 hr
    simp [pipelineRows, updateDatabase, List.get_eq_getElem, List.getElem_map,
      List.getElem_zip]
  refine ⟨?_, ?_, ?_⟩
  · -- every clustered member gets its id and the count of that id
    intro i h1 h2 hr hpos
    have hc : cluster_ids.get ⟨i, h2⟩ ≠ -1 := by
      intro hh
      rw [hh] at hpos
      norm_num at hpos
    rw [hrow i h1 h2 hr]
    obtain ⟨ha, hb, -⟩ := persistRow_clustered cluster_ids
      (sel.select_from_clusters articles cluster_ids) classifications _ _ hc
    exact ⟨ha, hb⟩
  · -- exactly one representative row per non-negative cluster id
    intro c hc0 hcmem
    have hc : c ≠ -1 := by
      intro hh
      rw [hh] at hc0
      norm_num at hc0
    obtain ⟨j, hj⟩ := List.mem_iff_get.mp hcmem
    have hja : (j : ℕ) < articles.length := by rw [hlen]; exact j.isLt
    have hzj : (j : ℕ) < (articles.zip cluster_ids).length := by
      simp [List.length_zip, hlen]
    have hzmem : (articles.get ⟨j, hja⟩, c) ∈ articles.zip cluster_ids := by
      rw [← hj]
      have hzg : (articles.zip cluster_ids).get ⟨j, hzj⟩ =
          (articles.get ⟨j, hja⟩, cluster_ids.get j) := by
        simp [List.get_eq_getElem, List.getElem_zip]
      rw [← hzg]
      exact List.get_mem _ _ _
    obtain ⟨rep, hrep⟩ := select_from_clusters_lookup_exists sel articles cluster_ids
      c hc ⟨_, hzmem⟩
    obtain ⟨-, hrepmem⟩ := select_from_clusters_lookup_mem sel articles cluster_ids
      c rep hrep
    have hchar : ∀ q ∈ articles.zip cluster_ids,
        ((decide ((persistRow cluster_ids
            (sel.select_from_clusters articles cluster_ids) classifications
            q.1 q.2).duplicate_cluster_id = some c) &&
          (persistRow cluster_ids (sel.select_from_clusters articles cluster_ids)
            classifications q.1 q.2).cluster_representative) = true)
          ↔ (q.2 = c ∧ q.1.id = rep.id) := by
      intro q _
      obtain ⟨a, cq⟩ := q
      by_cases hcq : cq = -1
      · subst hcq
        simp [persistRow_outlier, Ne.symm hc]
      · obtain ⟨hdup, -, hrepflag⟩ := persistRow_clustered cluster_ids
          (sel.select_from_clusters articles cluster_ids) classifications a cq hcq
        rw [hdup, hrepflag]
        by_cases hcc : cq = c
        · subst hcc
          rw [hrep]
          simp [eq_comm]
        · simp [hcc]
    have hcountmap : (pipelineRows sel articles cluster_ids classifications).countP
        (fun r => decide (r.duplicate_cluster_id = some c) &&
          r.cluster_representative) =
        (articles.zip cluster_ids).countP
          (fun q => decide ((persistRow cluster_ids
              (sel.select_from_clusters articles cluster_ids) classifications
              q.1 q.2).duplicate_cluster_id = some c) &&
            (persistRow cluster_ids (sel.select_from_clusters articles cluster_ids)
              classifications q.1 q.2).cluster_representative) := by
      show (((articles.zip cluster_ids).map
          (fun p => persistRow cluster_ids
            (sel.select_from_clusters articles cluster_ids) classifications
            p.1 p.2)).countP _) = _
      rw [List.countP_map]
      rfl
    rw [hcountmap]
    refine countP_eq_one_of_nodup_key (fun q => q.1.id) (articles.zip cluster_ids)
      _ (rep, c) ?_ hrepmem ?_ ?_
    · have hfst : (articles.zip cluster_ids).map Prod.fst = articles :=
        List.map_fst_zip articles cluster_ids (le_of_eq hlen)
      have hmm : ((articles.zip cluster_ids).map (fun q => q.1.id)) =
          articles.map Article.id := by
        conv_rhs => rw [← hfst]
        rw [List.map_map]
        rfl
      rw [hmm]
      exact hnodup
    · exact (hchar (rep, c) hrepmem).mpr ⟨rfl, rfl⟩
    · intro y hy hpy
      exact ((hchar y hy).mp hpy).2
  · -- outliers
    intro i h2 hr hneg
    have h1 : i < articles.length := by rw [hlen]; exact h2
    rw [hrow i h1 h2 hr, hneg, persistRow_outlier]
    exact ⟨rfl, rfl, rfl⟩

/-- Concrete selector for witnesses. -/
def selW : RepresentativeSelector := RepresentativeSelector.init (1/2) (1/2) none

/-- Concrete three-article batch for witnesses (distinct ids). -/
def artsW : List Article :=
  [{ id := 1, title := "a", description := "", source := "s" },
   { id := 2, title := "b", description := "", source := "s" },
   { id := 3, title := "c", description := "", source := "s" }]

/-- Concrete assignments for witnesses: one two-member cluster, one
outlier. -/
def cidsW : List Int := [0, 0, -1]

/-- Witness for C1: the invariants instantiated on a concrete batch. -/
theorem C1_persisted_batch_invariants_witness :
    (∀ (i : ℕ) (h1 : i < artsW.length) (h2 : i < cidsW.length)
        (hr : i < (pipelineRows selW artsW cidsW []).length),
      0 ≤ cidsW.get ⟨i, h2⟩ →
      ((pipelineRows selW artsW cidsW []).get ⟨i, hr⟩).duplicate_cluster_id
          = some (cidsW.get ⟨i, h2⟩) ∧
      ((pipelineRows selW artsW cidsW []).get ⟨i, hr⟩).duplicate_count
          = (cidsW.count (cidsW.get ⟨i, h2⟩) : Int)) ∧
    (∀ c : Int, 0 ≤ c → c ∈ cidsW →
      (pipelineRows selW artsW cidsW []).countP
        (fun r => decide (r.duplicate_cluster_id = some c) &&
          r.cluster_representative) = 1) ∧
    (∀ (i : ℕ) (h2 : i < cidsW.length)
        (hr : i < (pipelineRows selW artsW cidsW []).length),
      cidsW.get ⟨i, h2⟩ = -1 →
      ((pipelineRows selW artsW cidsW []).get ⟨i, hr⟩).duplicate_cluster_id = none ∧
      ((pipelineRows selW artsW cidsW []).get ⟨i, hr⟩).duplicate_count = 1 ∧
      ((pipelineRows selW artsW cidsW []).get ⟨i, hr⟩).cluster_representative = true) :=
  C1_persisted_batch_invariants selW artsW cidsW [] (by decide) (by decide)

/-- Mutable state of an `EmbeddingService`: whether `self.model` is
loaded, plus an instrumentation counter of `model.encode` invocations. -/
structure EmbeddingServiceState where
  modelLoaded : Bool
  encodeCalls : ℕ
deriving DecidableEq

/-- Embeds `EmbeddingService._load_model`: load the model when it is not
loaded yet (idempotent otherwise). -/
def EmbeddingService.load_model (st : EmbeddingServiceState) : EmbeddingServiceState :=
  if st.modelLoaded then st else { st with modelLoaded := true }

/-- Embeds `EmbeddingService.embed_batch` (the external `model.encode` is
the oracle `enc`): `_load_model` runs first, then an empty text list
returns an empty matrix without encoding, otherwise the model encodes the
whole batch once. -/
def EmbeddingService.embed_batch (enc : List String → List (List ℚ))
    (st : EmbeddingServiceState) (texts : List String) :
    EmbeddingServiceState × List (List ℚ) :=
  let st1 := EmbeddingService.load_model st
  if texts.isEmpty then (st1, [])
  else ({ st1 with encodeCalls := st1.encodeCalls + 1 }, enc texts)

/-- Embeds `EmbeddingService.embed_articles` (`model.encode` and
`np.linalg.norm` are the oracles `enc` and `norm`): `_load_model` runs
first, an empty article list returns an empty matrix, and otherwise
titles and descriptions are encoded separately, combined by weighted sum
and each row divided by its norm plus the epsilon guard 1e-8. -/
def EmbeddingService.embed_articles (enc : List String → List (List ℚ))
    (norm : List ℚ → ℚ) (st : EmbeddingServiceState)
    (articles : List (String × String)) (title_weight description_weight : ℚ) :
    EmbeddingServiceState × List (List ℚ) :=
  let st1 := EmbeddingService.load_model st
  if articles.isEmpty then (st1, [])
  else
    let titles := articles.map Prod.fst
    let descriptions := articles.map Prod.snd
    let title_embeddings := enc titles
    let description_embeddings := enc descriptions
    let combined := List.zipWith
      (fun t d => List.zipWith
        (fun x y => title_weight * x + description_weight * y) t d)
      title_embeddings description_embeddings
    let rows := combined.map (fun row => row.map (fun x => x / (norm row + 1/100000000)))
    ({ st1 with encodeCalls := st1.encodeCalls + 2 }, rows)

/-- C8 (counterexample): calling `embed_articles` or `embed_batch` with an
empty input on a service whose model is not yet loaded leaves the model
loaded afterwards — `_load_model()` runs before the empty-input check, so
the claim that the model is not loaded on empty input is false. -/
theorem C8_empty_input_still_loads_model_counterexample :
    ((EmbeddingService.embed_articles (fun _ => [[1]]) (fun _ => 1)
        { modelLoaded := false, encodeCalls := 0 } []
        (7/10) (3/10)).1.modelLoaded = true) ∧
    ((EmbeddingService.embed_batch (fun _ => [[1]])
        { modelLoaded := false, encodeCalls := 0 } []).1.modelLoaded = true) :=
  ⟨rfl, rfl⟩

/-- C8 (amended): an empty input makes `embed_articles` and `embed_batch`
return an empty matrix with no exception and no encode call (the call
counter is unchanged), but only after `_load_model` has run, so the model
is loaded afterwards even when it was not loaded before. -/
theorem C8_empty_input_empty_matrix_no_encode
    (enc : List String → List (List ℚ)) (norm : List ℚ → ℚ)
    (st : EmbeddingServiceState) (title_weight description_weight : ℚ) :
    EmbeddingService.embed_articles enc norm st [] title_weight description_weight =
      (EmbeddingService.load_model st, []) ∧
    EmbeddingService.embed_batch enc st [] = (EmbeddingService.load_model st, []) ∧
    (EmbeddingService.load_model st).modelLoaded = true ∧
    (EmbeddingService.load_model st).encodeCalls = st.encodeCalls := by
  refine ⟨rfl, rfl, ?_, ?_⟩ <;>
    (unfold EmbeddingService.load_model; by_cases h : st.modelLoaded <;> simp [h])

/-- The six stages of `DataProcessor.run`. -/
inductive PipelineStage where
  | fetch
  | embedStage
  | clusterStage
  | selectRepresentatives
  | classifyStage
  | persist
deriving DecidableEq

/-- The run-statistics dictionary of `DataProcessor.run`. -/
structure RunStats where
  fetched : ℕ
  embedded : ℕ
  deduplicated : ℕ
  representatives_selected : ℕ
  classified : ℕ
  processed : ℕ
  errors : ℕ
deriving DecidableEq

/-- The statistics dictionary as initialized at the top of `run`. -/
def RunStats.zero : RunStats := ⟨0, 0, 0, 0, 0, 0, 0⟩

/-- What `DataProcessor.run` hands back to its caller: the exception that
escapes the method (`none` — the `except` clause catches everything), the
returned statistics, and the stages that ran to completion. -/
structure RunReturn where
  propagated : Option String
  stats : RunStats
  completed : List PipelineStage
deriving DecidableEq

/-- Embeds `DataProcessor.run`.  The effectful stage bodies — the fetch
query, `embed_articles`, `DBSCAN`, `select_from_clusters` and the final
database commit — are passed as `Except`-valued arguments (Python can
raise inside any of them); the per-representative classification uses the
total `ClassificationService.classify` over the per-article API oracle.
Any stage error is caught by the surrounding `try/except`: the error
counter is incremented, nothing is re-raised, and the statistics
accumulated so far are returned.  An empty fetch returns early. -/
def DataProcessor.run
    (fetchResult : Except String (List Article))
    (embedResult : List Article → Except String (List (List ℚ)))
    (clusterResult : List (List ℚ) → Except String (List Int))
    (selectResult : List Article → List Int → Except String (List (Int × Article)))
    (api : Article → Except String RawClassification)
    (persistResult : List PersistedRow → Except String Unit) : RunReturn :=
  match fetchResult with
  | .error _ => ⟨none, { RunStats.zero with errors := 1 }, []⟩
  | .ok articles =>
    let s1 := { RunStats.zero with fetched := articles.length }
    if articles.isEmpty then ⟨none, s1, [PipelineStage.fetch]⟩
    else
      match embedResult articles with
      | .error _ => ⟨none, { s1 with errors := 1 }, [PipelineStage.fetch]⟩
      | .ok embeddings =>
        let s2 := { s1 with embedded := embeddings.length }
        match clusterResult embeddings with
        | .error _ =>
          ⟨none, { s2 with errors := 1 }, [PipelineStage.fetch, PipelineStage.embedStage]⟩
        | .ok cluster_ids =>
          let s3 := { s2 with
            deduplicated := (cluster_ids.filter (fun c => decide (c ≠ -1))).length }
          match selectResult articles cluster_ids with
          | .error _ =>
            ⟨none, { s3 with errors := 1 },
              [PipelineStage.fetch, PipelineStage.embedStage, PipelineStage.clusterStage]⟩
          | .ok representatives =>
            let s4 := { s3 with representatives_selected := representatives.length }
            let classifications := representatives.map
              (fun p => (p.1, ClassificationService.classify (api p.2)))
            let s5 := { s4 with classified := classifications.length }
            let rows := updateDatabase articles cluster_ids representatives classifications
            match persistResult rows with
            | .error _ =>
              ⟨none, { s5 with errors := 1 },
                [PipelineStage.fetch, PipelineStage.embedStage, PipelineStage.clusterStage,
                 PipelineStage.selectRepresentatives, PipelineStage.classifyStage]⟩
            | .ok _ =>
              ⟨none, { s5 with processed := rows.length },
                [PipelineStage.fetch, PipelineStage.embedStage, PipelineStage.clusterStage,
                 PipelineStage.selectRepresentatives, PipelineStage.classifyStage,
                 PipelineStage.persist]⟩

lemma isEmpty_false_of_ne_nil {α : Type} {l : List α} (h : l ≠ []) :
    l.isEmpty = false := by
  cases l with
  | nil => exact absurd rfl h
  | cons a t => rfl

/-- C3 (counterexample): a fetch-stage failure is not surfaced to the
caller — `run` catches it, increments the error counter and returns the
statistics normally, propagating nothing. -/
theorem C3_stage_error_not_propagated_counterexample :
    (DataProcessor.run (.error "store unreachable") (fun _ => .ok [])
        (fun _ => .ok []) (fun _ _ => .ok []) (fun _ => .error "unused")
        (fun _ => .ok ())).propagated = none ∧
    (DataProcessor.run (.error "store unreachable") (fun _ => .ok [])
        (fun _ => .ok []) (fun _ _ => .ok []) (fun _ => .error "unused")
        (fun _ => .ok ())).stats.errors = 1 :=
  ⟨rfl, rfl⟩

/-- C3 (amended): an exception in the Fetch, Embed, Cluster or
SelectRepresentatives stage aborts the run (no later stage completes) and
increments the error counter by exactly one, and the caller receives the
statistics accumulated up to the failing stage — but the exception itself
is caught and logged, not propagated to the caller. -/
theorem C3_stage_errors_abort_without_propagation
    (fetchResult : Except String (List Article))
    (embedResult : List Article → Except String (List (List ℚ)))
    (clusterResult : List (List ℚ) → Except String (List Int))
    (selectResult : List Article → List Int → Except String (List (Int × Article)))
    (api : Article → Except String RawClassification)
    (persistResult : List PersistedRow → Except String Unit) (e : String) :
    (fetchResult = .error e →
      DataProcessor.run fetchResult embedResult clusterResult selectResult api
          persistResult =
        ⟨none, { RunStats.zero with errors := 1 }, []⟩) ∧
    (∀ articles, fetchResult = .ok articles → articles ≠ [] →
      embedResult articles = .error e →
      DataProcessor.run fetchResult embedResult clusterResult selectResult api
          persistResult =
        ⟨none, { RunStats.zero with fetched := articles.length, errors := 1 },
          [PipelineStage.fetch]⟩) ∧
    (∀ articles embeddings, fetchResult = .ok articles → articles ≠ [] →
      embedResult articles = .ok embeddings →
      clusterResult embeddings = .error e →
      DataProcessor.run fetchResult embedResult clusterResult selectResult api
          persistResult =
        ⟨none, { RunStats.zero with fetched := articles.length, embedded := embeddings.length, errors := 1 },
          [PipelineStage.fetch, PipelineStage.embedStage]⟩) ∧
    (∀ articles embeddings cluster_ids, fetchResult = .ok articles → articles ≠ [] →
      embedResult articles = .ok embeddings →
      clusterResult embeddings = .ok cluster_ids →
      selectResult articles cluster_ids = .error e →
      DataProcessor.run fetchResult embedResult clusterResult selectResult api
          persistResult =
        ⟨none, { RunStats.zero with fetched := articles.length, embedded := embeddings.length, deduplicated := (cluster_ids.filter (fun c => decide (c ≠ -1))).length, errors := 1 },
          [PipelineStage.fetch, PipelineStage.embedStage, PipelineStage.clusterStage]⟩) := by
  refine ⟨?_, ?_, ?_, ?_⟩
  · intro h
    rw [h]
    rfl
  · intro articles h1 hne h2
    rw [h1]
    simp only [DataProcessor.run, isEmpty_false_of_ne_nil hne, Bool.false_eq_true,
      if_false, h2]
  · intro articles embeddings h1 hne h2 h3
    rw [h1]
    simp only [DataProcessor.run, isEmpty_false_of_ne_nil hne, Bool.false_eq_true,
      if_false, h2, h3]
  · intro articles embeddings cluster_ids h1 hne h2 h3 h4
    rw [h1]
    simp only [DataProcessor.run, isEmpty_false_of_ne_nil hne, Bool.false_eq_true,
      if_false, h2, h3, h4]

/-- Witness for C3: each of the four abortable stages exercised at a
concrete failing input. -/
theorem C3_stage_errors_abort_witness :
    (DataProcessor.run (Except.error "boom") (fun _ => .ok []) (fun _ => .ok [])
        (fun _ _ => .ok []) (fun _ => .error "unused") (fun _ => .ok ()) =
      ⟨none, { RunStats.zero with errors := 1 }, []⟩) ∧
    (DataProcessor.run (.ok artsW) (fun _ => .error "boom") (fun _ => .ok [])
        (fun _ _ => .ok []) (fun _ => .error "unused") (fun _ => .ok ()) =
      ⟨none, { RunStats.zero with fetched := artsW.length, errors := 1 },
        [PipelineStage.fetch]⟩) ∧
    (DataProcessor.run (.ok artsW) (fun _ => .ok [[1], [1], [1]])
        (fun _ => .error "boom") (fun _ _ => .ok []) (fun _ => .error "unused")
        (fun _ => .ok ()) =
      ⟨none, { RunStats.zero with fetched := artsW.length, embedded := 3, errors := 1 },
        [PipelineStage.fetch, PipelineStage.embedStage]⟩) ∧
    (DataProcessor.run (.ok artsW) (fun _ => .ok [[1], [1], [1]])
        (fun _ => .ok cidsW) (fun _ _ => .error "boom") (fun _ => .error "unused")
        (fun _ => .ok ()) =
      ⟨none, { RunStats.zero with fetched := artsW.length, embedded := 3, deduplicated := (cidsW.filter (fun c => decide (c ≠ -1))).length, errors := 1 },
        [PipelineStage.fetch, PipelineStage.embedStage, PipelineStage.clusterStage]⟩) :=
  ⟨(C3_stage_errors_abort_without_propagation (.error "boom") (fun _ => .ok [])
      (fun _ => .ok []) (fun _ _ => .ok []) (fun _ => .error "unused")
      (fun _ => .ok ()) "boom").1 rfl,
   (C3_stage_errors_abort_without_propagation (.ok artsW) (fun _ => .error "boom")
      (fun _ => .ok []) (fun _ _ => .ok []) (fun _ => .error "unused")
      (fun _ => .ok ()) "boom").2.1 artsW rfl (by decide) rfl,
   (C3_stage_errors_abort_without_propagation (.ok artsW) (fun _ => .ok [[1], [1], [1]])
      (fun _ => .error "boom") (fun _ _ => .ok []) (fun _ => .error "unused")
      (fun _ => .ok ()) "boom").2.2.1 artsW [[1], [1], [1]] rfl (by decide) rfl rfl,
   (C3_stage_errors_abort_without_propagation (.ok artsW) (fun _ => .ok [[1], [1], [1]])
      (fun _ => .ok cidsW) (fun _ _ => .error "boom") (fun _ => .error "unused")
      (fun _ => .ok ()) "boom").2.2.2 artsW [[1], [1], [1]] cidsW rfl (by decide)
      rfl rfl rfl⟩

/-- A fully successful run: every stage completes and the statistics
record each stage's output size with a zero error counter. -/
lemma run_success
    (fetchResult : Except String (List Article))
    (embedResult : List Article → Except String (List (List ℚ)))
    (clusterResult : List (List ℚ) → Except String (List Int))
    (selectResult : List Article → List Int → Except String (List (Int × Article)))
    (api : Article → Except String RawClassification)
    (persistResult : List PersistedRow → Except String Unit)
    (articles : List Article) (embeddings : List (List ℚ)) (cluster_ids : List Int)
    (representatives : List (Int × Article))
    (h1 : fetchResult = .ok articles) (hne : articles ≠ [])
    (h2 : embedResult articles = .ok embeddings)
    (h3 : clusterResult embeddings = .ok cluster_ids)
    (h4 : selectResult articles cluster_ids = .ok representatives)
    (h5 : persistResult (updateDatabase articles cluster_ids representatives
        (representatives.map (fun p => (p.1, ClassificationService.classify (api p.2)))))
      = .ok ()) :
    DataProcessor.run fetchResult embedResult clusterResult selectResult api
        persistResult =
      ⟨none,
        ⟨articles.length, embeddings.length,
          (cluster_ids.filter (fun c => decide (c ≠ -1))).length,
          representatives.length, representatives.length,
          (updateDatabase articles cluster_ids representatives
            (representatives.map
              (fun p => (p.1, ClassificationService.classify (api p.2))))).length, 0⟩,
        [PipelineStage.fetch, PipelineStage.embedStage, PipelineStage.clusterStage,
         PipelineStage.selectRepresentatives, PipelineStage.classifyStage,
         PipelineStage.persist]⟩ := by
  rw [h1]
  simp only [DataProcessor.run, isEmpty_false_of_ne_nil hne, Bool.false_eq_true,
    if_false, h2, h3, h4, h5, List.length_map]
  rfl

/-- Looking a cluster id up in the classification dictionary built over
the representatives gives the classification of that cluster's
representative. -/
lemma lookup_map_classify (api : Article → Except String RawClassification) :
    ∀ (l : List (Int × Article)), ((l.map Prod.fst).Nodup) →
      ∀ (c : Int) (a : Article), (c, a) ∈ l →
        (l.map (fun p => (p.1, ClassificationService.classify (api p.2)))).lookup c =
          some (ClassificationService.classify (api a)) := by
  intro l
  induction l with
  | nil =>
    intro _ c a ha
    simp at ha
  | cons q rest ih =>
    intro hnd c a ha
    obtain ⟨k, b⟩ := q
    simp only [List.map_cons, List.nodup_cons] at hnd
    obtain ⟨hknotin, hndrest⟩ := hnd
    rw [List.map_cons, lookup_cons_int]
    rcases List.mem_cons.mp ha with heq | hmem
    · obtain ⟨rfl, rfl⟩ : c = k ∧ a = b := by simpa [Prod.ext_iff] using heq
      rw [if_pos rfl]
    · by_cases hck : c = k
      · exfalso
        subst hck
        exact hknotin (by simpa using List.mem_map_of_mem Prod.fst hmem)
      · rw [if_neg hck]
        exact ih hndrest c a hmem

/-- C4: per-representative classification failure is isolated.  With all
batch stages succeeding and the API call raising for exactly the
representative of cluster k, the run completes with classified equal to
the number of representatives and a zero error counter, nothing
propagates, cluster k receives the fixed fallback (categories ["기타"],
no tags, confidence 0), and every representative whose call succeeds
keeps its own classification result. -/
theorem C4_classification_failure_isolated
    (fetchResult : Except String (List Article))
    (embedResult : List Article → Except String (List (List ℚ)))
    (clusterResult : List (List ℚ) → Except String (List Int))
    (selectResult : List Article → List Int → Except String (List (Int × Article)))
    (api : Article → Except String RawClassification)
    (persistResult : List PersistedRow → Except String Unit)
    (articles : List Article) (embeddings : List (List ℚ)) (cluster_ids : List Int)
    (representatives : List (Int × Article)) (k : Int) (ak : Article) (e : String)
    (h1 : fetchResult = .ok articles) (hne : articles ≠ [])
    (h2 : embedResult articles = .ok embeddings)
    (h3 : clusterResult embeddings = .ok cluster_ids)
    (h4 : selectResult articles cluster_ids = .ok representatives)
    (h5 : persistResult (updateDatabase articles cluster_ids representatives
        (representatives.map (fun p => (p.1, ClassificationService.classify (api p.2)))))
      = .ok ())
    (hnd : ((representatives.map Prod.fst).Nodup))
    (hkmem : (k, ak) ∈ representatives)
    (hapik : api ak = .error e) :
    ((DataProcessor.run fetchResult embedResult clusterResult selectResult api
        persistResult).stats.classified = representatives.length) ∧
    ((DataProcessor.run fetchResult embedResult clusterResult selectResult api
        persistResult).stats.errors = 0) ∧
    ((DataProcessor.run fetchResult embedResult clusterResult selectResult api
        persistResult).propagated = none) ∧
    ((DataProcessor.run fetchResult embedResult clusterResult selectResult api
        persistResult).completed =
      [PipelineStage.fetch, PipelineStage.embedStage, PipelineStage.clusterStage,
       PipelineStage.selectRepresentatives, PipelineStage.classifyStage,
       PipelineStage.persist]) ∧
    ((representatives.map
        (fun p => (p.1, ClassificationService.classify (api p.2)))).lookup k =
      some ⟨["기타"], [], some 0, some e⟩) ∧
    (∀ (c : Int) (a : Article) (r : RawClassification), (c, a) ∈ representatives →
      api a = .ok r →
      (representatives.map
          (fun p => (p.1, ClassificationService.classify (api p.2)))).lookup c =
        some (ClassificationService.classify (.ok r))) := by
  have hrun := run_success fetchResult embedResult clusterResult selectResult api
    persistResult articles embeddings cluster_ids representatives h1 hne h2 h3 h4 h5
  refine ⟨by rw [hrun], by rw [hrun], by rw [hrun], by rw [hrun], ?_, ?_⟩
  · rw [lookup_map_classify api representatives hnd k ak hkmem, hapik]
    rfl
  · intro c a r hmem hr
    rw [lookup_map_classify api representatives hnd c a hmem, hr]

/-- API oracle for the C4 witness: the call for the article with id 1
raises, every other call succeeds. -/
def apiW : Article → Except String RawClassification :=
  fun a => if a.id = 1 then .error "timeout" else .ok ⟨["기타"], ["pf"], some 90⟩

/-- Representatives for the C4 witness. -/
def repsW : List (Int × Article) :=
  [(0, { id := 1, title := "a", description := "", source := "s" }),
   (1, { id := 2, title := "b", description := "", source := "s" })]

/-- Witness for C4: two representatives, the classification call of the
first one failing. -/
theorem C4_classification_failure_isolated_witness :
    ((DataProcessor.run (.ok artsW) (fun _ => .ok [[1], [1], [1]])
        (fun _ => .ok cidsW) (fun _ _ => .ok repsW) apiW
        (fun _ => .ok ())).stats.classified = repsW.length) ∧
    ((DataProcessor.run (.ok artsW) (fun _ => .ok [[1], [1], [1]])
        (fun _ => .ok cidsW) (fun _ _ => .ok repsW) apiW
        (fun _ => .ok ())).stats.errors = 0) ∧
    ((DataProcessor.run (.ok artsW) (fun _ => .ok [[1], [1], [1]])
        (fun _ => .ok cidsW) (fun _ _ => .ok repsW) apiW
        (fun _ => .ok ())).propagated = none) ∧
    ((DataProcessor.run (.ok artsW) (fun _ => .ok [[1], [1], [1]])
        (fun _ => .ok cidsW) (fun _ _ => .ok repsW) apiW
        (fun _ => .ok ())).completed =
      [PipelineStage.fetch, PipelineStage.embedStage, PipelineStage.clusterStage,
       PipelineStage.selectRepresentatives, PipelineStage.classifyStage,
       PipelineStage.persist]) ∧
    ((repsW.map (fun p => (p.1, ClassificationService.classify (apiW p.2)))).lookup 0 =
      some ⟨["기타"], [], some 0, some "timeout"⟩) ∧
    (∀ (c : Int) (a : Article) (r : RawClassification), (c, a) ∈ repsW →
      apiW a = .ok r →
      (repsW.map (fun p => (p.1, ClassificationService.classify (apiW p.2)))).lookup c =
        some (ClassificationService.classify (.ok r))) :=
  C4_classification_failure_isolated (.ok artsW) (fun _ => .ok [[1], [1], [1]])
    (fun _ => .ok cidsW) (fun _ _ => .ok repsW) apiW (fun _ => .ok ())
    artsW [[1], [1], [1]] cidsW repsW 0
    { id := 1, title := "a", description := "", source := "s" } "timeout"
    rfl (by decide) rfl rfl rfl rfl (by decide) (by decide) rfl

/-- Boolean eps-neighborhood matrix of n points for a distance function:
entry (i, j) holds when the distance is at most eps. -/
def adjacencyMatrix (d : ℕ → ℕ → ℚ) (eps : ℚ) (n : ℕ) : List (List Bool) :=
  (List.range n).map (fun i => (List.range n).map (fun j => decide (d i j ≤ eps)))

/-- Indices within eps of point i (the point itself included). -/
def neighborsOf (adj : List (List Bool)) (i : ℕ) : List ℕ :=
  (List.range adj.length).filter (fun j => ((adj.getD i []).getD j false))

/-- A core point has at least min_samples points (itself included) in its
eps-neighborhood. -/
def isCorePoint (adj : List (List Bool)) (min_samples : ℕ) (i : ℕ) : Bool :=
  decide (min_samples ≤ (neighborsOf adj i).length)

/-- Cluster expansion of DBSCAN: pop queued points, absorb noise points
as border points, label fresh points with the current cluster and keep
expanding through the neighborhoods of core points (fuel bounds the
queue throughput, which never exceeds (n+1)^2). -/
def dbscanExpand (adj : List (List Bool)) (min_samples : ℕ) (c : Int) :
    ℕ → List (Option Int) → List ℕ → List (Option Int)
  | 0, labels, _ => labels
  | _ + 1, labels, [] => labels
  | fuel + 1, labels, q :: queue =>
    match labels.getD q none with
    | some l =>
      if l = -1 then dbscanExpand adj min_samples c fuel (labels.set q (some c)) queue
      else dbscanExpand adj min_samples c fuel labels queue
    | none =>
      if isCorePoint adj min_samples q then
        dbscanExpand adj min_samples c fuel (labels.set q (some c))
          (queue ++ neighborsOf adj q)
      else dbscanExpand adj min_samples c fuel (labels.set q (some c)) queue

/-- Outer loop of DBSCAN: visit points in index order, mark non-core
unlabeled points as noise (−1), and grow a new cluster from each
unlabeled core point. -/
def dbscanLoop (adj : List (List Bool)) (min_samples : ℕ) :
    List ℕ → List (Option Int) → Int → List (Option Int)
  | [], labels, _ => labels
  | i :: rest, labels, c =>
    match labels.getD i none with
    | some _ => dbscanLoop adj min_samples rest labels c
    | none =>
      if isCorePoint adj min_samples i then
        dbscanLoop adj min_samples rest
          (dbscanExpand adj min_samples c ((adj.length + 1) * (adj.length + 1))
            (labels.set i (some c)) (neighborsOf adj i)) (c + 1)
      else dbscanLoop adj min_samples rest (labels.set i (some (-1))) c

/-- DBSCAN over a neighborhood matrix: cluster labels in order of
discovery, −1 for noise. -/
def dbscanRun (adj : List (List Bool)) (min_samples : ℕ) : List Int :=
  (dbscanLoop adj min_samples (List.range adj.length)
    (List.replicate adj.length none) 0).map (fun o => o.getD (-1))

/-- Modelled from the spec: `DeduplicationService.cluster` delegates the
actual clustering to sklearn's `DBSCAN(eps, min_samples).fit_predict`,
library code that is not part of this repository; the specification
describes its semantics (core points have at least min_samples points
within distance eps, clusters connect mutually reachable core points and
absorb reachable non-core points, unreachable points get −1), which this
function implements over the pairwise distance function of the n
embeddings.  The guard for zero points mirrors the early return of the
Python method. -/
def DeduplicationService.cluster (d : ℕ → ℕ → ℚ) (eps : ℚ) (min_samples : ℕ)
    (n : ℕ) : List Int :=
  if n = 0 then [] else dbscanRun (adjacencyMatrix d eps n) min_samples

/-- C2: density-reachability on the four-point scenario.  For any
distance function where the first three points are pairwise within 0.1
(distance 0 to themselves) and the fourth point is at distance 0.9 from
the first three, clustering with eps = 0.3 and min_samples = 2 labels the
first three points as cluster 0 and the fourth as the outlier −1. -/
theorem C2_density_reachability_four_points (d : ℕ → ℕ → ℚ)
    (hdiag : ∀ i, i < 4 → d i i = 0)
    (hclose : ∀ i j, i < 3 → j < 3 → i ≠ j → d i j ≤ 1/10)
    (hfar : ∀ i, i < 3 → d i 3 = 9/10 ∧ d 3 i = 9/10) :
    DeduplicationService.cluster d (3/10) 2 4 = [0, 0, 0, -1] := by
  have hT : ∀ i j, i < 4 → j < 4 → ((i < 3 ∧ j < 3) ∨ i = 3 ∨ j = 3) := by omega
  have hadj : adjacencyMatrix d (3/10) 4 =
      [[true, true, true, false], [true, true, true, false],
       [true, true, true, false], [false, false, false, true]] := by
    have et : ∀ i j, i < 3 → j < 3 → decide (d i j ≤ 3/10) = true := by
      intro i j hi hj
      by_cases hij : i = j
      · subst hij
        exact decide_eq_true (by rw [hdiag i (by omega)]; norm_num)
      · exact decide_eq_true (le_trans (hclose i j hi hj hij) (by norm_num))
    have ef1 : ∀ i, i < 3 → decide (d i 3 ≤ 3/10) = false := by
      intro i hi
      exact decide_eq_false (by rw [(hfar i hi).1]; norm_num)
    have ef2 : ∀ i, i < 3 → decide (d 3 i ≤ 3/10) = false := by
      intro i hi
      exact decide_eq_false (by rw [(hfar i hi).2]; norm_num)
    have e33 : decide (d 3 3 ≤ 3/10) = true :=
      decide_eq_true (by rw [hdiag 3 (by omega)]; norm_num)
    show ((List.range 4).map fun i =>
        (List.range 4).map fun j => decide (d i j ≤ 3/10)) = _
    rw [show List.range 4 = [0, 1, 2, 3] from rfl]
    simp only [List.map_cons, List.map_nil]
    rw [et 0 0 (by omega) (by omega), et 0 1 (by omega) (by omega),
      et 0 2 (by omega) (by omega), ef1 0 (by omega),
      et 1 0 (by omega) (by omega), et 1 1 (by omega) (by omega),
      et 1 2 (by omega) (by omega), ef1 1 (by omega),
      et 2 0 (by omega) (by omega), et 2 1 (by omega) (by omega),
      et 2 2 (by omega) (by omega), ef1 2 (by omega),
      ef2 0 (by omega), ef2 1 (by omega), ef2 2 (by omega), e33]
  show (if (4 : ℕ) = 0 then [] else dbscanRun (adjacencyMatrix d (3/10) 4) 2) = _
  rw [if_neg (by norm_num), hadj]
  decide

/-- Concrete distance function for the C2 witness. -/
def dW : ℕ → ℕ → ℚ :=
  fun i j => if i = j then 0 else if i < 3 ∧ j < 3 then 1/10 else 9/10

/-- Witness for C2: the scenario evaluated at a concrete distance
function. -/
theorem C2_density_reachability_four_points_witness :
    DeduplicationService.cluster dW (3/10) 2 4 = [0, 0, 0, -1] :=
  C2_density_reachability_four_points dW
    (fun i _ => by simp [dW])
    (fun i j hi hj hij => by simp [dW, hij, hi, hj])
    (fun i hi => by
      refine ⟨?_, ?_⟩ <;>
        simp [dW, show i ≠ 3 by omega, show ¬((3:ℕ) < 3) by omega,
          show (3:ℕ) ≠ i by omega])

/-- Entry (i, j) of a similarity matrix held as a list of rows. -/
def simAt (sim : List (List ℚ)) (i j : ℕ) : ℚ := (sim.getD i []).getD j 0

/-- Inner loop of `TfidfClusteringService._group_by_similarity`: scan the
indices after the seed i, adding every unvisited article whose similarity
to the seed reaches the threshold to the seed's cluster. -/
def greedyInner {α : Type} [Inhabited α] (sim : List (List ℚ)) (threshold : ℚ)
    (articles : List α) (i : ℕ) :
    List ℕ → List ℕ → List α → (List ℕ × List α)
  | [], visited, cluster => (visited, cluster)
  | j :: js, visited, cluster =>
    if j ∈ visited then greedyInner sim threshold articles i js visited cluster
    else if threshold ≤ simAt sim i j then
      greedyInner sim threshold articles i js (j :: visited)
        (cluster ++ [articles.getD j default])
    else greedyInner sim threshold articles i js visited cluster

/-- Outer loop of `_group_by_similarity`: every unvisited index seeds a
cluster of itself plus the articles the inner loop links to it; only
clusters of at least two articles are kept, numbered in creation order. -/
def greedyOuter {α : Type} [Inhabited α] (sim : List (List ℚ)) (threshold : ℚ)
    (articles : List α) :
    List ℕ → List ℕ → ℕ → List (ℕ × List α) → List (ℕ × List α)
  | [], _, _, clusters => clusters
  | i :: rest, visited, cluster_id, clusters =>
    if i ∈ visited then greedyOuter sim threshold articles rest visited cluster_id clusters
    else
      let res := greedyInner sim threshold articles i
        (List.range' (i + 1) (articles.length - (i + 1))) (i :: visited)
        [articles.getD i default]
      if 2 ≤ res.2.length then
        greedyOuter sim threshold articles rest res.1 (cluster_id + 1)
          (clusters ++ [(cluster_id, res.2)])
      else greedyOuter sim threshold articles rest res.1 cluster_id clusters

/-- Embeds `TfidfClusteringService._group_by_similarity`: greedy
pairwise-threshold grouping against the seed of each cluster only (no
core-point or reachability expansion), dropping singleton groups. -/
def TfidfClusteringService.group_by_similarity {α : Type} [Inhabited α]
    (sim : List (List ℚ)) (articles : List α) (threshold : ℚ) :
    List (ℕ × List α) :=
  greedyOuter sim threshold articles (List.range articles.length) [] 0 []

/-- The chain input on which the two grouping strategies disagree:
similarities 0.8 between neighbors in the chain 0–1–2 and 0.5 between the
endpoints. -/
def simC9 : List (List ℚ) :=
  [[1, 8/10, 1/2], [8/10, 1, 8/10], [1/2, 8/10, 1]]

/-- The corresponding cosine distances (distance = 1 − similarity). -/
def dC9 : ℕ → ℕ → ℚ := fun i j => 1 - simAt simC9 i j

/-- C9: the two grouping strategies of the repository are not equivalent.
On the chain 0–1–2 (endpoints not similar enough), with eps = 0.3,
min_samples = 2 and the greedy threshold 0.7 = 1 − eps over the same
similarities, density-reachability clustering puts all three points in
one cluster, while the greedy seed-linking groups only {0, 1} and leaves
point 2 ungrouped: the two partitions differ on the pair (1, 2). -/
theorem C9_grouping_strategies_not_equivalent :
    ((7 : ℚ)/10 = 1 - 3/10) ∧
    DeduplicationService.cluster dC9 (3/10) 2 3 = [0, 0, 0] ∧
    TfidfClusteringService.group_by_similarity simC9 [0, 1, 2] (7/10) =
      [(0, [0, 1])] ∧
    (∀ g ∈ TfidfClusteringService.group_by_similarity simC9 [0, 1, 2] (7/10),
      ¬((1 : ℕ) ∈ g.2 ∧ (2 : ℕ) ∈ g.2)) := by
  have hadj : adjacencyMatrix dC9 (3/10) 3 =
      [[true, true, false], [true, true, true], [false, true, true]] := by
    show ((List.range 3).map fun i =>
        (List.range 3).map fun j => decide (dC9 i j ≤ 3/10)) = _
    rw [show List.range 3 = [0, 1, 2] from rfl]
    simp only [List.map_cons, List.map_nil]
    rw [show decide (dC9 0 0 ≤ 3/10) = true from
        decide_eq_true (by norm_num [dC9, simAt, simC9]),
      show decide (dC9 0 1 ≤ 3/10) = true from
        decide_eq_true (by norm_num [dC9, simAt, simC9]),
      show decide (dC9 0 2 ≤ 3/10) = false from
        decide_eq_false (by norm_num [dC9, simAt, simC9]),
      show decide (dC9 1 0 ≤ 3/10) = true from
        decide_eq_true (by norm_num [dC9, simAt, simC9]),
      show decide (dC9 1 1 ≤ 3/10) = true from
        decide_eq_true (by norm_num [dC9, simAt, simC9]),
      show decide (dC9 1 2 ≤ 3/10) = true from
        decide_eq_true (by norm_num [dC9, simAt, simC9]),
      show decide (dC9 2 0 ≤ 3/10) = false from
        decide_eq_false (by norm_num [dC9, simAt, simC9]),
      show decide (dC9 2 1 ≤ 3/10) = true from
        decide_eq_true (by norm_num [dC9, simAt, simC9]),
      show decide (dC9 2 2 ≤ 3/10) = true from
        decide_eq_true (by norm_num [dC9, simAt, simC9])]
  have hgreedy : TfidfClusteringService.group_by_similarity simC9
      ([0, 1, 2] : List ℕ) (7/10) = [(0, [0, 1])] := by
    show greedyOuter simC9 (7/10) [0, 1, 2] (List.range 3) [] 0 [] = _
    rw [show List.range 3 = [0, 1, 2] from rfl]
    norm_num [greedyOuter, greedyInner, simAt, simC9, List.range']
  refine ⟨by norm_num, ?_, hgreedy, ?_⟩
  · show (if (3 : ℕ) = 0 then []
        else dbscanRun (adjacencyMatrix dC9 (3/10) 3) 2) = _
    rw [if_neg (by norm_num), hadj]
    decide
  · intro g hg
    rw [hgreedy] at hg
    simp only [List.mem_singleton] at hg
    subst hg
    decide

end AideCore
